import Mathlib

/-!
Shallow embedding of `novaclient/shell.py` (the OpenStack Nova CLI shell
dispatcher): global options, environment fallback, extension discovery,
subcommand-registry construction, the help and bash-completion built-ins,
and the credential-validation phase of `OpenStackComputeShell.main`.
-/

namespace NovaShell

/-! ### Error messages (verbatim from `shell.py`) -/

/-- Message raised at `shell.py:236` when username is missing. -/
def usernameMissingMsg : String :=
  "You must provide a username, either via --username or via env[NOVA_USERNAME]"

/-- Message raised at `shell.py:242` when both password and apikey are missing. -/
def passwordMissingMsg : String :=
  "You must provide a password, either via --password or via env[NOVA_PASSWORD]"

/-- Message raised at `shell.py:248` when projectid is missing (auth-gated check). -/
def projectidMissingMsg : String :=
  "You must provide an projectid, either via --projectid or via env[OS_TENANT_NAME]"

/-- Message raised at `shell.py:253` when the auth url is missing (auth-gated check). -/
def urlMissingMsg : String :=
  "You must provide a auth url, either via --url or via env[OS_AUTH_URL]"

/-- Message raised at `shell.py:259` when projectid is missing (version-gated check;
the unclosed bracket is verbatim from the source). -/
def versionProjectidMsg : String :=
  "You must provide an projectid, either via --projectid or via env[NOVA_PROJECT_ID"

/-- Message raised at `shell.py:264` when the auth url is missing (version-gated check). -/
def versionUrlMsg : String :=
  "You must provide a auth url, either via --url or via env[NOVA_URL"

/-- Message raised by `do_help` at `shell.py:319` for an unknown subcommand name. -/
def unknownCommandMsg (name : String) : String :=
  "'" ++ name ++ "' is not a valid subcommand"

/-- Message raised by `_discover_extensions` at `shell.py:159`. -/
def noManagerMsg : String :=
  "Could not find Manager class in extension."

/-! ### Global options and environment fallback -/

/-- The global option values after argparse merging of CLI flags with their
environment defaults (`get_base_parser`, `shell.py:48-106`).  Empty string
models an unset value, matching the `env` helper returning `''`. -/
structure Options where
  debug : Bool
  username : String
  apikey : String
  password : String
  projectid : String
  url : String
  region_name : String
  endpoint_name : String
  version : String
  insecure : Bool
deriving Repr, DecidableEq

/-- `env(*vars)` (`shell.py:35-43`): the first environment variable that is set
to a non-empty value wins; otherwise the empty string.  The input is the list
of looked-up values (`none` models an unset variable). -/
def env : List (Option String) → String
  | [] => ""
  | v :: vs =>
    match v with
    | some s => if s = "" then env vs else s
    | none => env vs

/-- argparse semantics for a flag with an environment-derived default: the flag
value when the flag was passed, otherwise the default. -/
def argValue (flagVal : Option String) (envDefault : String) : String :=
  flagVal.getD envDefault

/-- `if not endpoint_name: endpoint_name = 'publicURL'` (`shell.py:228-229`). -/
def resolveEndpointName (endpoint_name : String) : String :=
  if endpoint_name = "" then "publicURL" else endpoint_name

/-- Truthiness of the flag value: absent, or present but empty. -/
def flagEmpty : Option String → Prop
  | none => True
  | some s => s = ""

instance : DecidablePred flagEmpty := fun f => by
  cases f with
  | none => exact isTrue trivial
  | some s => exact inferInstanceAs (Decidable (s = ""))

/-! ### Version-dependent module and client-class selection -/

/-- The API client classes reachable from the shell.  Only the 1.1 client
exists in this revision (`shell_v1_1.CLIENT_CLASS`). -/
inductive ClientClass
  | v1_1
deriving Repr, DecidableEq

/-- First-match lookup in a literal association table, modelling a Python dict
literal indexed by a string key (the `KeyError` case is `none`). -/
def dictLookup {α : Type} : List (String × α) → String → Option α
  | [], _ => none
  | (k, v) :: rest, key => if k = key then some v else dictLookup rest key

/-- `get_api_class` (`shell.py:284-291`): dict lookup with fallback to the
1.1 client class on `KeyError`. -/
def get_api_class (version : String) : ClientClass :=
  match dictLookup [("1.1", ClientClass.v1_1), ("2", ClientClass.v1_1)] version with
  | some c => c
  | none => ClientClass.v1_1

/-! ### Module introspection and the subcommand registry -/

/-- One attribute of a module-like object, as seen by `_find_actions`
(`shell.py:173-195`): the attribute name (e.g. `"do_boot"`) and the option
flag strings declared via `@utils.arg` on the callback (positional argument
names carry no leading dash and never enter `_option_string_actions`, so they
are not listed here). -/
structure Action where
  attr : String
  args : List String
deriving Repr, DecidableEq

/-- The `a.startswith('do_')` filter of `_find_actions` (`shell.py:174`). -/
def isDoAttr (a : Action) : Bool :=
  a.attr.data.take 3 = ['d', 'o', '_']

/-- `attr[3:].replace('_', '-')` (`shell.py:176`). -/
def cmdName (attr : String) : String :=
  String.mk ((attr.data.drop 3).map (fun c => if c = '_' then '-' else c))

/-- A registered subparser, reduced to what the claims observe: the callback
assigned by `set_defaults(func=...)`, identified by its qualified name, and the
option strings in `_optionals._option_string_actions`. -/
structure Subcmd where
  func : String
  opts : List String
deriving Repr, DecidableEq

/-- The subparser `_find_actions` builds for one action (`shell.py:182-195`):
the help flags are always added, then the declared argument flags. -/
def mkSubcmd (moduleName : String) (a : Action) : Subcmd :=
  { func := moduleName ++ "." ++ a.attr, opts := ["-h", "--help"] ++ a.args }

/-- The registration state: `self.subcommands` as the ordered sequence of
`self.subcommands[command] = subparser` assignments, plus the diagnostic
messages the registration code emits (the source emits none). -/
structure RegState where
  entries : List (String × Subcmd)
  log : List String
deriving Repr, DecidableEq

/-- Python dict lookup over the assignment sequence: the latest assignment to
a key is its value. -/
def regFind (entries : List (String × Subcmd)) (key : String) : Option Subcmd :=
  entries.foldl (fun acc e => if e.1 = key then some e.2 else acc) none

/-- Dict membership `command in self.subcommands`. -/
def regMem (entries : List (String × Subcmd)) (key : String) : Bool :=
  entries.any (fun e => e.1 = key)

/-- `_find_actions(subparsers, actions_module)` (`shell.py:173-195`): register
every `do_`-prefixed attribute of the module, in `dir()` order, overwriting on
name collision without emitting any diagnostic. -/
def _find_actions (st : RegState) (moduleName : String) (actions : List Action) : RegState :=
  (actions.filter isDoAttr).foldl
    (fun st a =>
      { entries := st.entries ++ [(cmdName a.attr, mkSubcmd moduleName a)]
        log := st.log })
    st

/-- The entries one `_find_actions` call appends. -/
def newEntries (moduleName : String) (actions : List Action) : List (String × Subcmd) :=
  (actions.filter isDoAttr).map (fun a => (cmdName a.attr, mkSubcmd moduleName a))

/-- The dispatcher's own `do_`-prefixed attributes, in `dir(self)` (sorted)
order: `do_bash_completion` then `do_help`.  `do_help`'s single decorated
argument is the positional `command`, which contributes no option string. -/
def selfActions : List Action :=
  [{ attr := "do_bash_completion", args := [] }, { attr := "do_help", args := [] }]

/-- The extra subparser of `_add_bash_completion_subparser` (`shell.py:165-171`):
registered under the underscore spelling, `add_help=False`, no arguments. -/
def bashCompletionSubcmd : Subcmd :=
  { func := "self.do_bash_completion", opts := [] }

/-- A discovered extension as consumed by `get_subcommand_parser`: its name and
the `do_`-attributes of its loaded module. -/
structure Extension where
  name : String
  module : List Action
deriving Repr, DecidableEq

/-- `get_subcommand_parser(version, extensions)` (`shell.py:108-131`): register
the version module's actions (dict lookup with fallback to `shell_v1_1`), then
the keystone module's, then the dispatcher's own, then each extension's in
discovery order, and finally the dedicated `bash_completion` subparser. -/
def get_subcommand_table (version : String) (v1_1Actions keystoneActions : List Action)
    (extensions : List Extension) : RegState :=
  let actionsModule :=
    match dictLookup [("1.1", v1_1Actions), ("2", v1_1Actions)] version with
    | some m => m
    | none => v1_1Actions
  let st : RegState := { entries := [], log := [] }
  let st := _find_actions st "shell_v1_1" actionsModule
  let st := _find_actions st "shell_keystone" keystoneActions
  let st := _find_actions st "self" selfActions
  let st := extensions.foldl (fun st e => _find_actions st e.name e.module) st
  { entries := st.entries ++ [("bash_completion", bashCompletionSubcmd)], log := st.log }

/-! ### Extension discovery -/

/-- A top-level value of a plugin module, as classified by the
`issubclass(attr_value, base.Manager)` probe (`shell.py:150-156`):
a Manager-derived class, some other class, or a non-class value
(`issubclass` raises `TypeError`, which is swallowed). -/
inductive PyValue
  | managerSubclass
  | otherClass
  | nonClass
deriving Repr, DecidableEq

/-- The Manager-extraction scan (`shell.py:149-156`): first value that is a
class derived from `base.Manager`, if any. -/
def extractManager : List PyValue → Option PyValue
  | [] => none
  | v :: vs =>
    match v with
    | .managerSubclass => some .managerSubclass
    | _ => extractManager vs

/-- One plugin file in the version-scoped `contrib` directory: its basename
minus `.py`, the top-level values of the loaded module, and its
`do_`-attributes (used later by `_find_actions`). -/
structure PluginFile where
  name : String
  values : List PyValue
  actions : List Action
deriving Repr, DecidableEq

/-- `_discover_extensions` (`shell.py:133-163`) over the directory listing in
`glob.iglob` enumeration order: skip `__init__`, fail on the first file with no
Manager-derived class, otherwise append a (name, Manager class, module) tuple. -/
def _discover_extensions : List PluginFile → Except String (List (String × PyValue × PluginFile))
  | [] => .ok []
  | f :: fs =>
    if f.name = "__init__" then _discover_extensions fs
    else
      match extractManager f.values with
      | none => .error noManagerMsg
      | some mgr =>
        match _discover_extensions fs with
        | .error e => .error e
        | .ok rest => .ok ((f.name, mgr, f) :: rest)

/-- The names of the discovered extensions, in discovery order. -/
def discoveredNames (files : List PluginFile) : Except String (List String) :=
  (_discover_extensions files).map (List.map (fun t => t.1))

/-- Lines 203-205 of `main`: discovery runs first and aborts the run before
`get_subcommand_parser` is ever called. -/
def buildParser (version : String) (files : List PluginFile)
    (v1_1Actions keystoneActions : List Action) : Except String RegState :=
  match _discover_extensions files with
  | .error e => .error e
  | .ok exts =>
    .ok (get_subcommand_table version v1_1Actions keystoneActions
      (exts.map (fun t => { name := t.1, module := t.2.2.actions })))

/-! ### The built-in commands -/

/-- What `do_help` prints when it succeeds. -/
inductive HelpAction
  | printTopLevel
  | printSubcommand (name : String)
deriving Repr, DecidableEq

/-- `do_help` (`shell.py:311-322`): with a truthy `command` argument, print the
named subcommand's help if registered, else raise `CommandError`; otherwise
print the top-level parser help. -/
def do_help (entries : List (String × Subcmd)) (command : Option String) :
    Except String HelpAction :=
  match command with
  | some c =>
    if c = "" then .ok .printTopLevel
    else if regMem entries c then .ok (.printSubcommand c)
    else .error (unknownCommandMsg c)
  | none => .ok .printTopLevel

/-- `do_bash_completion` (`shell.py:293-307`): iterate the items of the final
`self.subcommands` dict — each distinct registered name paired with the
subparser that survives for it, its latest assignment — collecting the command
names and the surviving subparsers' option strings into sets; a subparser
shadowed by a name collision is no longer in the dict and contributes no
options.  Then `remove` both completion spellings from the command set (a
`KeyError`, i.e. `none`, if absent) and print the union. -/
def do_bash_completion (st : RegState) : Option (Finset String) :=
  let keys := (st.entries.map Prod.fst).dedup
  let commands : Finset String := keys.toFinset
  let options : Finset String :=
    ((keys.filterMap (fun k => (regFind st.entries k).map Subcmd.opts)).flatten).toFinset
  if "bash-completion" ∈ commands then
    let commands := commands.erase "bash-completion"
    if "bash_completion" ∈ commands then
      some (commands.erase "bash_completion" ∪ options)
    else none
  else none

/-! ### The dispatch phase of `main` -/

/-- The callback selected by the authoritative parse, as compared by identity
at `shell.py:216-221`: the dispatcher's own `do_help`, its own
`do_bash_completion`, or an ordinary command carrying its
`utils.isunauthenticated` flag. -/
inductive Callback
  | help
  | bash_completion
  | cmd (name : String) (unauthenticated : Bool)
deriving Repr, DecidableEq

/-- Observable outcome of a successful `main` run. -/
inductive MainResult
  | helpShown
  | completionShown
  | dispatched (resolvedPassword : String) (endpointName : String) (client : ClientClass)
deriving Repr, DecidableEq

/-- Password resolution (`shell.py:240-245`): an empty password falls back to
the apikey; both empty is an error. -/
def resolvePassword (o : Options) : Except String String :=
  if o.password = "" then
    if o.apikey = "" then .error passwordMissingMsg else .ok o.apikey
  else .ok o.password

/-- The credential checks gated by `not utils.isunauthenticated(args.func)`
(`shell.py:234-255`), returning the resolved password. -/
def authChecks (o : Options) : Except String String :=
  if o.username = "" then .error usernameMissingMsg
  else
    match resolvePassword o with
    | .error e => .error e
    | .ok password =>
      if o.projectid = "" then .error projectidMissingMsg
      else if o.url = "" then .error urlMissingMsg
      else .ok password

/-- The version-gated checks (`shell.py:257-266`), which run for every
non-help, non-completion command regardless of its authentication flag. -/
def versionChecks (o : Options) : Except String Unit :=
  if o.version ≠ "" ∧ o.version ≠ "1.0" then
    if o.projectid = "" then .error versionProjectidMsg
    else if o.url = "" then .error versionUrlMsg
    else .ok ()
  else .ok ()

/-- The post-parse part of `main` (`shell.py:212-282`): help and
bash-completion short-circuit before any credential handling; otherwise the
endpoint name is defaulted, the auth-gated and version-gated checks run, and
the client is constructed from the resolved version. -/
def main (o : Options) (f : Callback) : Except String MainResult :=
  match f with
  | .help => .ok .helpShown
  | .bash_completion => .ok .completionShown
  | .cmd _ unauthenticated =>
    let endpointName := resolveEndpointName o.endpoint_name
    match (if unauthenticated then .ok o.password else authChecks o : Except String String) with
    | .error e => .error e
    | .ok password =>
      match versionChecks o with
      | .error e => .error e
      | .ok _ => .ok (.dispatched password endpointName (get_api_class o.version))

/-- The top-level entry point (`shell.py:333-342`): exceptions print the
message and exit 1, success exits 0. -/
def topLevelExit {α : Type} : Except String α → Nat
  | .ok _ => 0
  | .error _ => 1

/-- Whether the run failed with a user-facing error. -/
def isFailure {α : Type} : Except String α → Bool
  | .ok _ => false
  | .error _ => true

/-- All-empty options, as when no flag is passed and no variable is set. -/
def emptyOptions : Options :=
  { debug := false, username := "", apikey := "", password := "", projectid := ""
    url := "", region_name := "", endpoint_name := "", version := "", insecure := false }

/-- A contrib file whose name sorts late, holding a Manager-derived class. -/
def bPlugin : PluginFile :=
  { name := "b_plugin", values := [.managerSubclass], actions := [] }

/-- A contrib file whose name sorts early, holding a Manager-derived class. -/
def aPlugin : PluginFile :=
  { name := "a_plugin", values := [.managerSubclass], actions := [] }

/-! ### Helper lemmas -/

theorem find_actions_foldl (m : String) (l : List Action) (st : RegState) :
    (l.foldl
      (fun st a =>
        { entries := st.entries ++ [(cmdName a.attr, mkSubcmd m a)], log := st.log })
      st) =
    { entries := st.entries ++ l.map (fun a => (cmdName a.attr, mkSubcmd m a))
      log := st.log } := by
  induction l generalizing st with
  | nil => simp
  | cons a l ih => simp [ih]

theorem find_actions_spec (st : RegState) (m : String) (acts : List Action) :
    _find_actions st m acts =
      { entries := st.entries ++ newEntries m acts, log := st.log } := by
  unfold _find_actions
  rw [find_actions_foldl]
  rfl

theorem ext_foldl_spec (exts : List Extension) (st : RegState) :
    exts.foldl (fun st e => _find_actions st e.name e.module) st =
      { entries := st.entries ++ (exts.map (fun e => newEntries e.name e.module)).flatten
        log := st.log } := by
  induction exts generalizing st with
  | nil => simp
  | cons e exts ih =>
    rw [List.foldl_cons]
    show exts.foldl _ (_find_actions st e.name e.module) = _
    rw [ih, find_actions_spec]
    simp

/-- The full registration sequence of `get_subcommand_parser`, in its fixed
processing order. -/
def allEntries (version : String) (v1_1Actions keystoneActions : List Action)
    (extensions : List Extension) : List (String × Subcmd) :=
  newEntries "shell_v1_1"
      (match dictLookup [("1.1", v1_1Actions), ("2", v1_1Actions)] version with
       | some m => m
       | none => v1_1Actions)
    ++ newEntries "shell_keystone" keystoneActions
    ++ newEntries "self" selfActions
    ++ (extensions.map (fun e => newEntries e.name e.module)).flatten
    ++ [("bash_completion", bashCompletionSubcmd)]

theorem get_subcommand_table_spec (version : String)
    (v1_1Actions keystoneActions : List Action) (extensions : List Extension) :
    get_subcommand_table version v1_1Actions keystoneActions extensions =
      { entries := allEntries version v1_1Actions keystoneActions extensions
        log := [] } := by
  simp only [get_subcommand_table, ext_foldl_spec]
  simp only [find_actions_spec]
  simp [allEntries, List.append_assoc]

theorem regFind_init (k : String) (l : List (String × Subcmd)) (acc : Option Subcmd) :
    l.foldl (fun acc e => if e.1 = k then some e.2 else acc) acc =
      match regFind l k with
      | some v => some v
      | none => acc := by
  induction l generalizing acc with
  | nil => simp [regFind]
  | cons e l ih =>
    show l.foldl _ (if e.1 = k then some e.2 else acc) = _
    rw [ih]
    show _ = match l.foldl (fun acc e => if e.1 = k then some e.2 else acc)
        (if e.1 = k then some e.2 else none) with
      | some v => some v
      | none => acc
    rw [ih]
    by_cases h : e.1 = k <;> simp [h] <;> cases regFind l k <;> simp

theorem regFind_append (l₁ l₂ : List (String × Subcmd)) (k : String) :
    regFind (l₁ ++ l₂) k =
      match regFind l₂ k with
      | some v => some v
      | none => regFind l₁ k := by
  show (l₁ ++ l₂).foldl _ none = _
  rw [List.foldl_append, regFind_init]
  rfl

theorem regFind_eq_reverse_find (l : List (String × Subcmd)) (k : String) :
    regFind l k = (l.reverse.find? (fun e => e.1 == k)).map Prod.snd := by
  induction l with
  | nil => simp [regFind]
  | cons e l ih =>
    have : e :: l = [e] ++ l := rfl
    rw [this, regFind_append, ih]
    cases h : l.reverse.find? (fun e => e.1 == k) with
    | some v => simp [h, List.find?_append]
    | none =>
      simp [h, List.find?_append, regFind]

theorem regMem_append (l₁ l₂ : List (String × Subcmd)) (k : String) :
    regMem (l₁ ++ l₂) k = (regMem l₁ k || regMem l₂ k) := by
  simp [regMem]

theorem regFind_some_mem_keys (l : List (String × Subcmd)) (k : String) (sc : Subcmd)
    (h : regFind l k = some sc) : k ∈ l.map Prod.fst := by
  rw [regFind_eq_reverse_find] at h
  cases hf : l.reverse.find? (fun e => e.1 == k) with
  | none => rw [hf] at h; simp at h
  | some e =>
    have hm := List.mem_of_find?_eq_some hf
    have hk : e.1 = k := by simpa using List.find?_some hf
    rw [List.mem_reverse] at hm
    exact hk ▸ List.mem_map_of_mem Prod.fst hm

/-- A contrib file with no Manager-derived class among its top-level values. -/
def badPlugin : PluginFile :=
  { name := "widget", values := [.otherClass, .nonClass], actions := [] }

/-- A contrib file whose Manager-derived class sits behind a non-class value. -/
def goodPlugin : PluginFile :=
  { name := "flags", values := [.nonClass, .managerSubclass], actions := [] }

/-! ### Claim theorems -/

/-- Claim C8: for every version string outside `{"1.1", "2"}`, both the
subcommand-set selection of `get_subcommand_parser` and the client-class
selection of `get_api_class` fall back to the same defaults as the 1.1
version, deterministically (both are pure functions of the version string). -/
theorem C8_version_fallback (version : String) (v1_1Actions keystoneActions : List Action)
    (extensions : List Extension) (h1 : version ≠ "1.1") (h2 : version ≠ "2") :
    get_api_class version = get_api_class "1.1"
    ∧ get_subcommand_table version v1_1Actions keystoneActions extensions =
        get_subcommand_table "1.1" v1_1Actions keystoneActions extensions := by
  constructor
  · simp [get_api_class, dictLookup, Ne.symm h1, Ne.symm h2]
  · simp [get_subcommand_table, dictLookup, Ne.symm h1, Ne.symm h2]

/-- Witness for C8 at the unknown version string `"weird"`. -/
theorem C8_witness :
    get_api_class "weird" = get_api_class "1.1"
    ∧ get_subcommand_table "weird" [] [] [] = get_subcommand_table "1.1" [] [] [] :=
  C8_version_fallback "weird" [] [] [] (by decide) (by decide)

/-- Claim C9 counterexample: the claimed biconditional "the endpoint name
equals `publicURL` exactly when the flag value and its environment fallback
are both empty" fails when the flag is explicitly passed as `publicURL`: the
result equals `publicURL` although the flag is non-empty. -/
theorem C9_counterexample :
    ¬ ((resolveEndpointName (argValue (some "publicURL") "") = "publicURL") ↔
        (flagEmpty (some "publicURL") ∧ ("" : String) = "")) := by
  decide

/-- Claim C9 (amended): the endpoint name resolves to `publicURL` when the
argparse-merged flag/env value is empty (in particular when flag and env are
both empty), and resolves to the merged value itself otherwise — which may
also be `publicURL` when that value was supplied explicitly. -/
theorem C9_endpoint_default (flagVal : Option String) (envVal : String) :
    (argValue flagVal envVal = "" →
      resolveEndpointName (argValue flagVal envVal) = "publicURL")
    ∧ (argValue flagVal envVal ≠ "" →
      resolveEndpointName (argValue flagVal envVal) = argValue flagVal envVal)
    ∧ (flagEmpty flagVal ∧ envVal = "" →
      resolveEndpointName (argValue flagVal envVal) = "publicURL") := by
  refine ⟨fun h => by simp [resolveEndpointName, h],
          fun h => by simp [resolveEndpointName, h], fun h => ?_⟩
  cases flagVal with
  | none => simp [argValue, resolveEndpointName, h.2]
  | some s =>
    have hs : s = "" := h.1
    simp [argValue, resolveEndpointName, hs]

/-- Witness for C9: a non-empty flag value passes through unchanged, and the
all-empty case defaults to `publicURL`. -/
theorem C9_witness :
    resolveEndpointName (argValue (some "myURL") "") = argValue (some "myURL") ""
    ∧ resolveEndpointName (argValue none "") = "publicURL" :=
  ⟨(C9_endpoint_default (some "myURL") "").2.1 (by decide),
   (C9_endpoint_default none "").2.2 ⟨trivial, rfl⟩⟩

/-- Claim C3: discovery skips a plugin file named `__init__`; for any other
file, finding no Manager-derived class aborts discovery with the fatal load
error — and hence aborts `main` before `get_subcommand_parser` runs — while
finding one appends a (name, Manager class, module) tuple without error. -/
theorem C3_extension_validation (f : PluginFile) (fs : List PluginFile) :
    (f.name = "__init__" → _discover_extensions (f :: fs) = _discover_extensions fs)
    ∧ (f.name ≠ "__init__" → extractManager f.values = none →
        _discover_extensions (f :: fs) = .error noManagerMsg
        ∧ ∀ version v1_1Actions keystoneActions,
            buildParser version (f :: fs) v1_1Actions keystoneActions =
              .error noManagerMsg)
    ∧ (f.name ≠ "__init__" → ∀ m rest, extractManager f.values = some m →
        _discover_extensions fs = .ok rest →
        _discover_extensions (f :: fs) = .ok ((f.name, m, f) :: rest)) := by
  refine ⟨fun h => by simp [_discover_extensions, h], fun h hm => ?_, fun h m rest hm hd => ?_⟩
  · have he : _discover_extensions (f :: fs) = .error noManagerMsg := by
      simp [_discover_extensions, h, hm]
    exact ⟨he, fun version v1 ks => by simp [buildParser, he]⟩
  · simp [_discover_extensions, h, hm, hd]

/-- Witness for C3: an `__init__` file is skipped; a Manager-less file aborts
discovery and parser construction; a Manager-bearing file is appended. -/
theorem C3_witness :
    _discover_extensions [{ name := "__init__", values := [], actions := [] }] =
        _discover_extensions []
    ∧ _discover_extensions [badPlugin] = .error noManagerMsg
    ∧ buildParser "1.1" [badPlugin] [] [] = .error noManagerMsg
    ∧ _discover_extensions [goodPlugin] =
        .ok [("flags", PyValue.managerSubclass, goodPlugin)] := by
  refine ⟨(C3_extension_validation { name := "__init__", values := [], actions := [] } []).1 rfl,
          ?_, ?_, ?_⟩
  · exact ((C3_extension_validation badPlugin []).2.1 (by decide) rfl).1
  · exact ((C3_extension_validation badPlugin []).2.1 (by decide) rfl).2 "1.1" [] []
  · exact (C3_extension_validation goodPlugin []).2.2 (by decide)
      PyValue.managerSubclass [] rfl rfl

/-- Claim C2 counterexample: discovery over the enumeration `b_plugin`,
`a_plugin` (both holding Manager-derived classes) returns the names in
enumeration order `["b_plugin", "a_plugin"]`, which is not sorted by name —
`_discover_extensions` never sorts. -/
theorem C2_counterexample :
    discoveredNames [bPlugin, aPlugin] = .ok ["b_plugin", "a_plugin"]
    ∧ ¬ List.Pairwise (fun a b : String => a ≤ b) ["b_plugin", "a_plugin"] := by
  constructor
  · rfl
  · intro h
    have hb := (List.pairwise_cons.mp h).1 "a_plugin" (by simp)
    rw [String.le_iff_toList_le] at hb
    exact absurd hb (by decide)

/-- Claim C2 (amended): when every non-`__init__` file holds a Manager-derived
class, discovery returns the (name, Manager, module) tuples exactly in file
enumeration order — the `__init__`-filtered input order, not an order sorted
by name.  Repeated invocation over the same enumeration yields the same list. -/
theorem C2_discovery_order (files : List PluginFile)
    (h : ∀ f ∈ files, f.name ≠ "__init__" → extractManager f.values ≠ none) :
    discoveredNames files =
      .ok ((files.filter (fun f => f.name != "__init__")).map PluginFile.name) := by
  revert h
  induction files with
  | nil => intro _; rfl
  | cons f fs ih =>
    intro h
    have ihs := ih (fun g hg => h g (List.mem_cons_of_mem f hg))
    by_cases hf : f.name = "__init__"
    · have hskip : _discover_extensions (f :: fs) = _discover_extensions fs := by
        simp [_discover_extensions, hf]
      simp [discoveredNames, hskip, hf] at ihs ⊢
      exact ihs
    · cases hm : extractManager f.values with
      | none => exact absurd hm (h f (List.mem_cons_self f fs) hf)
      | some m =>
        cases hd : _discover_extensions fs with
        | error e =>
          rw [discoveredNames, hd] at ihs
          simp [Except.map] at ihs
        | ok rest =>
          rw [discoveredNames, hd] at ihs
          simp only [Except.map] at ihs
          simp [discoveredNames, _discover_extensions, hf, hm, hd, Except.map,
            Except.ok.injEq] at ihs ⊢
          exact ihs

/-- Witness for C2: over the enumeration `a_plugin`, `b_plugin` every file
holds a Manager class, and the output order is the enumeration order. -/
theorem C2_witness :
    discoveredNames [aPlugin, bPlugin] =
      .ok (([aPlugin, bPlugin].filter (fun f => f.name != "__init__")).map PluginFile.name) :=
  C2_discovery_order [aPlugin, bPlugin] (by decide)

/-- Claim C1 counterexample: with every credential field empty and
`--version 2`, dispatching an unauthenticated command still raises the
missing-projectid error, because the version-gated checks of
`shell.py:257-266` are not guarded by `utils.isunauthenticated`. -/
theorem C1_counterexample :
    main { emptyOptions with version := "2" } (.cmd "foo" true) =
      .error versionProjectidMsg := by
  simp [main, versionChecks, emptyOptions]

/-- Claim C1 (amended): an unauthenticated command never triggers the four
auth-gated credential errors, and with `--version` empty or `"1.0"` it
dispatches with no credential error at all even when every field is empty;
but a non-empty version other than `"1.0"` can still raise the version-gated
missing-projectid/missing-url errors. -/
theorem C1_unauthenticated_credential_checks (o : Options) (name : String) :
    (main o (.cmd name true) ≠ .error usernameMissingMsg
     ∧ main o (.cmd name true) ≠ .error passwordMissingMsg
     ∧ main o (.cmd name true) ≠ .error projectidMissingMsg
     ∧ main o (.cmd name true) ≠ .error urlMissingMsg)
    ∧ ((o.version = "" ∨ o.version = "1.0") →
        main o (.cmd name true) =
          .ok (.dispatched o.password (resolveEndpointName o.endpoint_name)
            (get_api_class o.version))) := by
  constructor
  · by_cases hv : o.version ≠ "" ∧ o.version ≠ "1.0" <;>
    by_cases hj : o.projectid = "" <;>
    by_cases hl : o.url = "" <;>
    simp [main, versionChecks, hv, hj, hl, usernameMissingMsg, passwordMissingMsg,
      projectidMissingMsg, urlMissingMsg, versionProjectidMsg, versionUrlMsg]
  · rintro (hv | hv) <;> simp [main, versionChecks, hv]

/-- Witness for C1: an unauthenticated command with all-empty options
dispatches successfully. -/
theorem C1_witness :
    main emptyOptions (.cmd "status" true) =
      .ok (.dispatched "" "publicURL" ClientClass.v1_1) := by
  have h := (C1_unauthenticated_credential_checks emptyOptions "status").2 (Or.inl rfl)
  simpa [emptyOptions, resolveEndpointName, get_api_class, dictLookup] using h

/-- Claim C5: for an authenticated command, credential validation fails
exactly when the username is empty, or both password and apikey are empty, or
the projectid is empty, or the auth url is empty; and an empty password with a
non-empty apikey resolves to the apikey, dispatching without a
missing-password error. -/
theorem C5_credential_validation (o : Options) (name : String) :
    (isFailure (main o (.cmd name false)) = true ↔
      (o.username = "" ∨ (o.password = "" ∧ o.apikey = "") ∨ o.projectid = "" ∨ o.url = ""))
    ∧ (o.password = "" → o.apikey ≠ "" → o.username ≠ "" → o.projectid ≠ "" → o.url ≠ "" →
        main o (.cmd name false) =
          .ok (.dispatched o.apikey (resolveEndpointName o.endpoint_name)
            (get_api_class o.version))) := by
  constructor
  · by_cases hu : o.username = "" <;>
    by_cases hp : o.password = "" <;>
    by_cases ha : o.apikey = "" <;>
    by_cases hj : o.projectid = "" <;>
    by_cases hl : o.url = "" <;>
    simp [main, authChecks, resolvePassword, versionChecks, isFailure, hu, hp, ha, hj, hl]
  · intro hp ha hu hj hl
    simp [main, authChecks, resolvePassword, versionChecks, hu, hp, ha, hj, hl]

/-- Witness options: empty password, apikey set, other credentials present. -/
def authOptions : Options :=
  { emptyOptions with username := "admin", apikey := "abc", projectid := "proj"
                      url := "http://auth" }

/-- Witness for C5: with password empty and apikey `"abc"`, the dispatched
client receives `"abc"` as its password. -/
theorem C5_witness :
    main authOptions (.cmd "boot" false) =
      .ok (.dispatched "abc" "publicURL" ClientClass.v1_1) := by
  have h := (C5_credential_validation authOptions "boot").2 rfl (by decide) (by decide)
    (by decide) (by decide)
  simpa [authOptions, emptyOptions, resolveEndpointName, get_api_class, dictLookup] using h

/-- Claim C6: `help` with no argument prints the top-level help and exits 0,
bypassing authentication; `help <name>` for an unregistered name raises the
unknown-command error with the exact message and exits 1. -/
theorem C6_help_behavior (entries : List (String × Subcmd)) (o : Options) (name : String)
    (h : regMem entries name = false) (hn : name ≠ "") :
    (do_help entries none = .ok .printTopLevel
     ∧ main o .help = .ok .helpShown
     ∧ topLevelExit (main o .help) = 0)
    ∧ (do_help entries (some name) = .error (unknownCommandMsg name)
       ∧ unknownCommandMsg name = "'" ++ name ++ "' is not a valid subcommand"
       ∧ topLevelExit (do_help entries (some name)) = 1) := by
  refine ⟨⟨rfl, rfl, rfl⟩, ?_⟩
  have hd : do_help entries (some name) = .error (unknownCommandMsg name) := by
    simp [do_help, hn, h]
  exact ⟨hd, rfl, by rw [hd]; rfl⟩

/-- Witness for C6: `help bogus-cmd` against the built registry with no
extensions errors with the exact message and exit code 1. -/
theorem C6_witness :
    do_help (get_subcommand_table "1.1" [] [] []).entries (some "bogus-cmd") =
        .error "'bogus-cmd' is not a valid subcommand"
    ∧ topLevelExit (do_help (get_subcommand_table "1.1" [] [] []).entries (some "bogus-cmd")) = 1
    ∧ main emptyOptions .help = .ok .helpShown := by
  have h := C6_help_behavior (get_subcommand_table "1.1" [] [] []).entries emptyOptions
    "bogus-cmd" (by decide) (by decide)
  refine ⟨?_, h.2.2.2, h.1.2.1⟩
  rw [h.2.1]
  congr 1

/-- The `self` module contributes exactly the hyphenated completion command
and the help command, in `dir()` order. -/
theorem selfEntries_eq :
    newEntries "self" selfActions =
      [("bash-completion", { func := "self.do_bash_completion", opts := ["-h", "--help"] }),
       ("help", { func := "self.do_help", opts := ["-h", "--help"] })] := by
  decide

/-- Both completion spellings are always among the registered command names. -/
theorem completion_names_mem (version : String) (v1_1Actions keystoneActions : List Action)
    (extensions : List Extension) :
    "bash-completion" ∈
        (get_subcommand_table version v1_1Actions keystoneActions extensions).entries.map
          Prod.fst
    ∧ "bash_completion" ∈
        (get_subcommand_table version v1_1Actions keystoneActions extensions).entries.map
          Prod.fst := by
  rw [get_subcommand_table_spec]
  constructor <;> simp [allEntries, selfEntries_eq]

/-- Claim C4 counterexample: the core 1.1 module and an extension both
register the command `foo`; the registry maps `foo` to the extension's
callback (last registration wins) but the registration log is empty, so the
collision is silently overwritten, not logged. -/
theorem C4_counterexample :
    ((get_subcommand_table "1.1" [{ attr := "do_foo", args := [] }] []
        [{ name := "ext1", module := [{ attr := "do_foo", args := ["--flag"] }] }]).entries.countP
      (fun e => e.1 == "foo") = 2)
    ∧ regFind (get_subcommand_table "1.1" [{ attr := "do_foo", args := [] }] []
        [{ name := "ext1", module := [{ attr := "do_foo", args := ["--flag"] }] }]).entries "foo" =
        some { func := "ext1.do_foo", opts := ["-h", "--help", "--flag"] }
    ∧ (get_subcommand_table "1.1" [{ attr := "do_foo", args := [] }] []
        [{ name := "ext1", module := [{ attr := "do_foo", args := ["--flag"] }] }]).log = [] := by
  refine ⟨by decide, by decide, by decide⟩

/-- Claim C4 (amended): registrations happen in the fixed processing order
(version module, keystone module, dispatcher built-ins, extensions in
discovery order, then the dedicated completion subparser); dict lookup
resolves a colliding name to the entry registered latest in that order; no
diagnostic is emitted for a collision. -/
theorem C4_last_registration_wins (version : String) (v1_1Actions keystoneActions : List Action)
    (extensions : List Extension) (k : String) :
    (get_subcommand_table version v1_1Actions keystoneActions extensions).entries =
        allEntries version v1_1Actions keystoneActions extensions
    ∧ regFind (get_subcommand_table version v1_1Actions keystoneActions extensions).entries k =
        ((get_subcommand_table version v1_1Actions keystoneActions
            extensions).entries.reverse.find? (fun e => e.1 == k)).map Prod.snd
    ∧ (get_subcommand_table version v1_1Actions keystoneActions extensions).log = [] := by
  refine ⟨?_, regFind_eq_reverse_find _ k, ?_⟩ <;> simp [get_subcommand_table_spec]

/-- Claim C10: after every construction of the subcommand parser the registry
holds both the `bash-completion` spelling (from the naming-convention scan of
the dispatcher's own methods) and the `bash_completion` spelling (from the
dedicated subparser), so both `remove` calls of `do_bash_completion` find
their element and the command never fails. -/
theorem C10_completion_keys_present (version : String) (v1_1Actions keystoneActions : List Action)
    (extensions : List Extension) :
    regMem (get_subcommand_table version v1_1Actions keystoneActions extensions).entries
        "bash-completion" = true
    ∧ regMem (get_subcommand_table version v1_1Actions keystoneActions extensions).entries
        "bash_completion" = true
    ∧ do_bash_completion (get_subcommand_table version v1_1Actions keystoneActions extensions) ≠
        none := by
  obtain ⟨h1, h2⟩ := completion_names_mem version v1_1Actions keystoneActions extensions
  have h1k : "bash-completion" ∈
      ((get_subcommand_table version v1_1Actions keystoneActions extensions).entries.map
        Prod.fst).dedup := List.mem_dedup.mpr h1
  have h2k : "bash_completion" ∈
      ((get_subcommand_table version v1_1Actions keystoneActions extensions).entries.map
        Prod.fst).dedup := List.mem_dedup.mpr h2
  refine ⟨?_, ?_, ?_⟩
  · simpa [regMem, List.any_eq_true] using (by simpa using h1 : _)
  · simpa [regMem, List.any_eq_true] using (by simpa using h2 : _)
  · simp [do_bash_completion, List.mem_toFinset, h1k, Finset.mem_erase, h2k]

/-- Claim C7: `do_bash_completion` succeeds and its printed token set is
exactly the registered command names minus both completion spellings,
together with every option flag string of every subcommand present in the
final registry — the subparser that the dict lookup resolves each name to;
the command short-circuits in `main` with exit code 0 and no credential
check. -/
theorem C7_bash_completion_output (version : String) (v1_1Actions keystoneActions : List Action)
    (extensions : List Extension) (o : Options) (t : String) :
    (∃ S, do_bash_completion (get_subcommand_table version v1_1Actions keystoneActions
          extensions) = some S
       ∧ (t ∈ S ↔
            ((t ∈ (get_subcommand_table version v1_1Actions keystoneActions
                extensions).entries.map Prod.fst
              ∧ t ≠ "bash-completion" ∧ t ≠ "bash_completion")
             ∨ ∃ k sc, regFind (get_subcommand_table version v1_1Actions keystoneActions
                  extensions).entries k = some sc ∧ t ∈ sc.opts)))
    ∧ main o .bash_completion = .ok .completionShown
    ∧ topLevelExit (main o .bash_completion) = 0 := by
  obtain ⟨h1, h2⟩ := completion_names_mem version v1_1Actions keystoneActions extensions
  have h1k := List.mem_dedup.mpr h1
  have h2k := List.mem_dedup.mpr h2
  have hsome : do_bash_completion (get_subcommand_table version v1_1Actions keystoneActions
        extensions) =
      some (((((get_subcommand_table version v1_1Actions keystoneActions
              extensions).entries.map Prod.fst).dedup.toFinset.erase "bash-completion").erase
          "bash_completion") ∪
        ((((get_subcommand_table version v1_1Actions keystoneActions extensions).entries.map
              Prod.fst).dedup.filterMap
            (fun k => (regFind (get_subcommand_table version v1_1Actions keystoneActions
              extensions).entries k).map Subcmd.opts)).flatten).toFinset) := by
    simp [do_bash_completion, List.mem_toFinset, h1k, Finset.mem_erase, h2k]
  refine ⟨⟨_, hsome, ?_⟩, rfl, rfl⟩
  simp only [Finset.mem_union, Finset.mem_erase, List.mem_toFinset, List.mem_flatten,
      List.mem_filterMap, List.mem_dedup, Option.map_eq_some']
  constructor
  · rintro (⟨hne2, hne1, hmem⟩ | ⟨l, ⟨k, hk, sc, hsc, rfl⟩, ht⟩)
    · exact Or.inl ⟨hmem, hne1, hne2⟩
    · exact Or.inr ⟨k, sc, hsc, ht⟩
  · rintro (⟨hmem, hne1, hne2⟩ | ⟨k, sc, hsc, ht⟩)
    · exact Or.inl ⟨hne2, hne1, hmem⟩
    · exact Or.inr ⟨sc.opts, ⟨k, regFind_some_mem_keys _ k sc hsc, sc, hsc, rfl⟩, ht⟩

end NovaShell
